import Mathlib

/-!
Shallow embedding of the lazy member-list subsystem of
`src/litecord/pubsub/lazy_guild.py` (classes `GroupInfo`, `MemberList`,
`Operation`, `GuildMemberList`, `LazyGuildDispatcher`).

Conventions of the embedding:
* Async methods that mutate `self` in place are modelled as functions
  `Env → Store → Store × Except PyErr α`: the store is returned in both the
  success and the error branch, mirroring in-place mutation that survives a
  propagating exception.
* External collaborators (the `Storage`, `PresenceManager`, `StateManager`
  instances and the `litecord.permissions` module, which are outside the
  excerpted sources) are modelled from the spec as an environment record of
  oracles whose fetches may fail.
* Python dicts are modelled as association lists in insertion order; Python
  string ids are modelled by the numeric ids they print.
-/

/-- Python-level runtime errors that the embedded code can raise:
`attributeError` models attribute access on a value lacking it (for example
`.gid` on a plain `int`), `keyError` a missing dict key, `typeError`
subscripting `None`, and `fetch n` a failing collaborator call. -/
inductive PyErr
  | attributeError
  | keyError
  | typeError
  | fetch (n : Nat)
deriving DecidableEq, Repr

/-- Modelled from the spec: the permission bit-set returned by the Permission
Resolver collaborator (`resolveEffectivePermission`, `mixOverwrites`).  Only
the `read_messages` bit is consumed by the member-list core
(`final_perms.bits.read_messages`), so the bit-set is collapsed to it. -/
structure Perms where
  read_messages : Bool
deriving DecidableEq, Repr

/-- `GroupID = Union[int, str]`: a role id, or the sentinel strings
`online` / `offline`. -/
inductive GID
  | role (id : Int)
  | online
  | offline
deriving DecidableEq, Repr

/-- `GroupInfo` dataclass: information about a specific group.  The synthetic
groups are created with `permissions = -1` in the source; that sentinel value
is never read, and is modelled by `permSentinel`. -/
structure GroupInfo where
  gid : GID
  name : String
  position : Int
  permissions : Perms
deriving DecidableEq, Repr

/-- Sentinel standing for the `-1` stored in the `permissions` slot of the
synthetic `online` / `offline` groups. -/
def permSentinel : Perms := ⟨false⟩

/-- An element of `MemberList.groups` as the source actually builds it in
`set_groups`: `role_ids + [GroupInfo(online), GroupInfo(offline)]`, i.e. a
bare role id (a plain `int`, which has no `.gid` attribute) or a `GroupInfo`
object. -/
inductive GroupEntry
  | rid (id : GID)
  | info (g : GroupInfo)
deriving DecidableEq, Repr

/-- Attribute access `entry.gid`: raises `AttributeError` on a bare id. -/
def GroupEntry.gidA : GroupEntry → Except PyErr GID
  | .rid _ => .error .attributeError
  | .info g => .ok g.gid

/-- One row of the `roles` table as fetched in `get_roles`. -/
structure RoleRow where
  id : Int
  name : String
  hoist : Bool
  position : Int
  permissions : Perms
deriving DecidableEq, Repr

/-- One channel permission overwrite record (`{id, allow, deny}` per the
spec's `getChannelOverwrites` contract). -/
structure Ov where
  id : Int
  allow : Int
  deny : Int
deriving DecidableEq, Repr

/-- One member row from `get_member_data`: user id plus optional nickname. -/
structure MemberRow where
  userId : Nat
  nick : Option String
deriving DecidableEq, Repr

/-- A presence record: `{user: {id, username}, roles, status, game}`.  The
`game` field stands for the partial-updatable activity fields. -/
structure Presence where
  userId : Nat
  username : String
  roles : List Int
  status : String
  game : Option String
deriving DecidableEq, Repr

/-- A partial presence (the `partial_presence` dict of `pres_update`): fields
present in the dict override the stored record on `dict.update`. -/
structure PresPatch where
  status : Option String
  game : Option (Option String)
deriving DecidableEq, Repr

/-- `stored.update(patch)`: dict merge of the partial fields. -/
def mergePresence (p : Presence) (patch : PresPatch) : Presence :=
  { p with
    status := patch.status.getD p.status
    game := (patch.game).getD p.game }

/-- A flat member-list item: a group header `{group: {id, count}}` or a
member entry `{member: presence}`. -/
inductive Item
  | header (gid : GID) (count : Nat)
  | member (p : Presence)
deriving DecidableEq, Repr

/-- `_get_id`: `item.get(member, {}).get(user, {}).get(id)`. -/
def itemUserId : Item → Option Nat
  | .header _ _ => none
  | .member p => some p.userId

/-- The `Operation` dataclass, with the exact per-variant fields kept by
`Operation.to_dict`. -/
inductive Op
  | sync (range : Nat × Nat) (items : List Item)
  | insert (index : Nat) (item : Item)
  | delete (index : Nat)
  | update (index : Nat) (item : Item)
  | invalidate (range : Nat × Nat)
deriving DecidableEq, Repr

/-- The `GUILD_MEMBER_LIST_UPDATE` payload built by `_dispatch_sess`:
`{id, guild_id, groups: [{id, count}], ops}`. -/
structure Payload where
  list_id : String
  guild_id : Int
  groups : List (GID × Nat)
  ops : List Op
deriving DecidableEq, Repr

/-- The `MemberList` dataclass: all four fields are `None` until the list is
built. -/
structure MemberList where
  groups : Option (List GroupEntry)
  group_info : Option (List (GID × GroupInfo))
  data : Option (List (GID × List Presence))
  overwrites : Option (List (Int × Ov))
deriving DecidableEq, Repr

/-- `MemberList.__bool__`: the list is fully initialized when every field is
not `None`. -/
def MemberList.toBool (ml : MemberList) : Bool :=
  ml.groups.isSome && ml.group_info.isSome && ml.data.isSome && ml.overwrites.isSome

/-- `MemberList(None, None, None, None)`. -/
def emptyML : MemberList := ⟨none, none, none, none⟩

/-- The per-session subscription map `{session_id: set[range]}`, in insertion
order, each range a `(start, end)` pair of flat indices. -/
abbrev StateMap := List (String × List (Nat × Nat))

/-- The mutable state of one `GuildMemberList` instance. -/
structure Store where
  guild_id : Int
  channel_id : Int
  list : MemberList
  state : StateMap
deriving DecidableEq, Repr

/-- Modelled from the spec: the external collaborators of §6 (Storage,
PresenceManager, StateManager and the permissions module, none of which are
part of the excerpted sources).  Each fetch either returns data or fails, and
the permission computations are opaque bit-set functions. -/
structure Env where
  get_member_ids : Except PyErr (List Nat)
  guild_presences : Except PyErr (List Presence)
  fetch_roles : Except PyErr (List RoleRow)
  chan_overwrites : Except PyErr (List Ov)
  get_permissions : Nat → Except PyErr Perms
  get_member_data : Except PyErr (List MemberRow)
  overwrite_find_mix : Perms → List (Int × Ov) → GID → Perms
  role_permissions : Except PyErr Perms
  fetch_raw : String → Option Unit

/-- First-match association-list lookup (Python dict read). -/
def assocLookup [DecidableEq κ] : List (κ × ν) → κ → Option ν
  | [], _ => none
  | (k, v) :: rest, key => if k = key then some v else assocLookup rest key

/-- Replace the value stored at the first occurrence of a key (Python dict
write to an existing key). -/
def assocSet [DecidableEq κ] : List (κ × ν) → κ → ν → List (κ × ν)
  | [], _, _ => []
  | (k, v) :: rest, key, val =>
      if k = key then (k, val) :: rest else (k, v) :: assocSet rest key val

/-- Sequencing of an in-place-mutating step that can raise: the mutated store
is kept in both branches. -/
def bindE (x : Store × Except PyErr α) (f : Store → α → Store × Except PyErr β) :
    Store × Except PyErr β :=
  match x with
  | (st, .error e) => (st, .error e)
  | (st, .ok a) => f st a

/-- Insert an element before the first list element for which `le` does not
put it after; auxiliary to `insSort`. -/
def ordInsert (le : α → α → Bool) (a : α) : List α → List α
  | [] => [a]
  | b :: l => if le a b then a :: b :: l else b :: ordInsert le a l

/-- Insertion sort with a boolean comparison. -/
def insSort (le : α → α → Bool) : List α → List α
  | [] => []
  | a :: l => ordInsert le a (insSort le l)

/-- Code-point comparison of character lists, as Python compares strings. -/
def charsLtB : List Char → List Char → Bool
  | [], [] => false
  | [], _ :: _ => true
  | _ :: _, [] => false
  | a :: as, b :: bs =>
      if a.toNat < b.toNat then true
      else if b.toNat < a.toNat then false
      else charsLtB as bs

/-- Python `s < t` on strings: lexicographic by code point. -/
def strLtB (s t : String) : Bool := charsLtB s.data t.data

/-- Python `sorted(xs, key=key)` with a strict `<` on keys: a stable sort,
modelled as sorting the enumerated list by the lexicographic order on
`(key, original index)`. -/
def pySortedBy (lt : β → β → Bool) (key : α → β) (l : List α) : List α :=
  (insSort
    (fun a b =>
      if lt (key a.2) (key b.2) then true
      else if lt (key b.2) (key a.2) then false
      else decide (a.1 ≤ b.1))
    l.enum).map Prod.snd

/-- Modelled from the spec: `litecord.utils.index_by_func` (not among the
excerpted sources), which locates an element by predicate.  Per the spec it
returns the index of the first matching element, and a not-found sentinel
(`None`) when no element matches. -/
def index_by_func (f : α → Bool) : List α → Option Nat
  | [] => none
  | x :: xs => if f x then some 0 else (index_by_func f xs).map (· + 1)

/-- Replace the element at an index, when it exists. -/
def listModify : List α → Nat → (α → α) → List α
  | [], _, _ => []
  | x :: xs, 0, f => f x :: xs
  | x :: xs, i + 1, f => x :: listModify xs i f

/-- Python slice `l[s:e]` for non-negative bounds. -/
def pySlice (l : List α) (s e : Nat) : List α := (l.take e).drop s

/-- Read `data[key]` where `data` may still be `None`: subscripting `None`
raises `TypeError`, a missing key raises `KeyError`. -/
def dataGet (d : Option (List (GID × List Presence))) (key : GID) :
    Except PyErr (List Presence) :=
  match d with
  | none => .error .typeError
  | some l =>
      match assocLookup l key with
      | none => .error .keyError
      | some ps => .ok ps

/-- `data[group_id].append(presence)`: raises `KeyError` when the group id is
not a key of the bucket dict. -/
def dataAppend : List (GID × List Presence) → GID → Presence →
    Except PyErr (List (GID × List Presence))
  | [], _, _ => .error .keyError
  | (k, ps) :: rest, gid, p =>
      if k = gid then .ok ((k, ps ++ [p]) :: rest)
      else (dataAppend rest gid p).map ((k, ps) :: ·)

/-- `self.state[session_id].add((start, end))` on the `defaultdict(set)`:
creates the per-session set on first touch, and adds the range if new. -/
def stateAdd (m : StateMap) (sid : String) (rg : Nat × Nat) : StateMap :=
  match assocLookup m sid with
  | some rs => assocSet m sid (if rg ∈ rs then rs else rs ++ [rg])
  | none => m ++ [(sid, [rg])]

/-- `self.state.pop(session_id)`: raises `KeyError` when the key is absent,
otherwise removes it. -/
def statePop (m : StateMap) (sid : String) : Except PyErr StateMap :=
  match assocLookup m sid with
  | some _ => .ok (m.filter (fun kv => kv.1 ≠ sid))
  | none => .error .keyError

/-- `_to_simple_group`: `offline` when the status is `offline`, else
`online`. -/
def _to_simple_group (status : String) : GID :=
  if status = "offline" then .offline else .online

/-- Membership test `g.gid in roles` for a member role-id list: only role
gids can match; the sentinel strings never occur in an int list. -/
def gidInRoles (g : GID) (roles : List Int) : Bool :=
  match g with
  | .role i => roles.contains i
  | _ => false

/-- `display_name` inside `_sort_groups`: the prefetched nickname when set
(Python falsiness: a missing, `None` or empty nickname falls back to the
username). -/
def displayName (nicks : List (Nat × Option String)) (p : Presence) : String :=
  match assocLookup nicks p.userId with
  | some (some n) => if n = "" then p.username else n
  | _ => p.username

/-- `GuildMemberList.list_id`: the string `everyone` for the guild-wide list,
else the channel id. -/
def list_id (st : Store) : String :=
  if st.channel_id = st.guild_id then "everyone" else toString st.channel_id

/-- `_set_empty_list`. -/
def _set_empty_list (st : Store) : Store :=
  { st with list := emptyML }

/-- `MemberList.__iter__`: yield `(group, self.data[group.gid])` for each
group in order; yields nothing when `groups` is falsy.  Attribute access on a
bare id and the dict lookups raise as in Python. -/
def mlIter (ml : MemberList) : Except PyErr (List (GroupInfo × List Presence)) :=
  match ml.groups with
  | none => .ok []
  | some gs =>
      gs.mapM fun e => do
        let gid ← e.gidA
        let ps ← dataGet ml.data gid
        match e with
        | .rid _ => .error .attributeError
        | .info g => .ok (g, ps)

/-- The `items` property: a header carrying the group id and live count,
followed by that group's member entries, for every group in order; `[]` when
the list is not fully initialized. -/
def items (ml : MemberList) : Except PyErr (List Item) :=
  if ml.toBool = false then .ok []
  else do
    let gps ← mlIter ml
    .ok (gps.map (fun gp =>
      Item.header gp.1.gid gp.2.length :: gp.2.map Item.member)).flatten

/-- `_fetch_overwrites`: fetch the channel overwrites and store them keyed by
subject id. -/
def _fetch_overwrites (env : Env) (st : Store) : Store × Except PyErr Unit :=
  match env.chan_overwrites with
  | .error e => (st, .error e)
  | .ok ovs =>
      ({ st with list :=
          { st.list with overwrites := some (ovs.map fun ov => (ov.id, ov)) } },
       .ok ())

/-- `get_roles`: keep the hoisted roles, sort them by position (Python
`sorted` is stable), fetch and store the overwrites, then keep only the roles
whose mixed channel permission grants `read_messages`, each updated in place
to carry its mixed permission. -/
def get_roles (env : Env) (st : Store) : Store × Except PyErr (List GroupInfo) :=
  match env.fetch_roles with
  | .error e => (st, .error e)
  | .ok roledata =>
      let hoisted := (roledata.filter (fun r => r.hoist)).map
        (fun r => GroupInfo.mk (GID.role r.id) r.name r.position r.permissions)
      let hoisted := pySortedBy (fun x y => decide (x < y)) (fun g => g.position) hoisted
      bindE (_fetch_overwrites env st) fun st _ =>
        let ovd := st.list.overwrites.getD []
        (st, .ok (hoisted.filterMap (fun g =>
          let final_perms := env.overwrite_find_mix g.permissions ovd g.gid
          let g2 := { g with permissions := final_perms }
          if final_perms.read_messages then some g2 else none)))

/-- `set_groups`: store `role_ids + [GroupInfo(online), GroupInfo(offline)]`
as the group list (the bare ids are kept exactly as the source builds them),
and the hoisted groups keyed by id as `group_info`. -/
def set_groups (env : Env) (st : Store) : Store × Except PyErr Unit :=
  bindE (get_roles env st) fun st role_groups =>
    let role_ids := role_groups.map (fun g => g.gid)
    ({ st with list :=
        { st.list with
          groups := some (role_ids.map GroupEntry.rid ++
            [GroupEntry.info ⟨GID.online, "online", -1, permSentinel⟩,
             GroupEntry.info ⟨GID.offline, "offline", -1, permSentinel⟩])
          group_info := some (role_groups.map (fun g => (g.gid, g))) } },
     .ok ())

/-- `_calc_member_group`: the first group in the stored list whose gid is in
the member's role list, else the simple group for the status.  Evaluating
`g.gid` on a bare id raises. -/
def _calc_member_group (status : String) (roles : List Int) :
    List GroupEntry → Except PyErr GID
  | [] => .ok (_to_simple_group status)
  | e :: rest => do
      let gid ← e.gidA
      if gidInRoles gid roles then .ok gid
      else _calc_member_group status roles rest

/-- The dict comprehension `{group.gid: [] for group in self.list.groups}`
assigning empty buckets; raises `AttributeError` at the first bare id. -/
def dataInit (st : Store) : Store × Except PyErr Unit :=
  match st.list.groups with
  | none => (st, .error .typeError)
  | some gs =>
      match gs.mapM GroupEntry.gidA with
      | .error e => (st, .error e)
      | .ok gids =>
          ({ st with list :=
              { st.list with data := some (gids.map (fun g => (g, ([] : List Presence)))) } },
           .ok ())

/-- The group-id expression of `_pass_1`:
`'offline' if status == 'offline' else self._calc_member_group(...)`. -/
def calcGroupId (st : Store) (presence : Presence) : Except PyErr GID :=
  if presence.status = "offline" then .ok GID.offline
  else
    match st.list.groups with
    | none => .error .typeError
    | some gs => _calc_member_group presence.status presence.roles gs

/-- `_pass_1`: assign each presence to a single group, skipping any member
whose effective channel permission lacks `read_messages`; presences already
appended stay appended when a later member's permission fetch fails. -/
def _pass_1 (env : Env) : List Presence → Store → Store × Except PyErr Unit
  | [], st => (st, .ok ())
  | presence :: rest, st =>
      match env.get_permissions presence.userId with
      | .error e => (st, .error e)
      | .ok member_perms =>
          if member_perms.read_messages = false then _pass_1 env rest st
          else
            match calcGroupId st presence with
            | .error e => (st, .error e)
            | .ok group_id =>
                match st.list.data with
                | none => (st, .error .typeError)
                | some d =>
                    match dataAppend d group_id presence with
                    | .error e => (st, .error e)
                    | .ok d2 =>
                        _pass_1 env rest
                          { st with list := { st.list with data := some d2 } }

/-- `_sort_groups`: prefetch the id-to-nickname map and sort every bucket in
place by display name (Python `list.sort(key=...)`, a stable sort). -/
def _sort_groups (env : Env) (st : Store) : Store × Except PyErr Unit :=
  match env.get_member_data with
  | .error e => (st, .error e)
  | .ok members =>
      let member_nicks := members.map (fun m => (m.userId, m.nick))
      match st.list.data with
      | none => (st, .error .typeError)
      | some d =>
          let d2 := d.map (fun kv => (kv.1, pySortedBy strLtB (displayName member_nicks) kv.2))
          ({ st with list := { st.list with data := some d2 } }, .ok ())

/-- `_init_member_list`: fetch member ids and presences, compute the groups,
initialize the buckets, run the two passes.  Every mutation already performed
survives a later failure. -/
def _init_member_list (env : Env) (st : Store) : Store × Except PyErr Unit :=
  match env.get_member_ids with
  | .error e => (st, .error e)
  | .ok _member_ids =>
      match env.guild_presences with
      | .error e => (st, .error e)
      | .ok guild_presences =>
          bindE (set_groups env st) fun st _ =>
          bindE (dataInit st) fun st _ =>
          bindE (_pass_1 env guild_presences st) fun st _ =>
          _sort_groups env st

/-- `_init_check`: build the list only when it is not fully initialized. -/
def _init_check (env : Env) (st : Store) : Store × Except PyErr Unit :=
  if st.list.toBool = true then (st, .ok ()) else _init_member_list env st

/-- `sub`: subscribing only ensures the list is initialized; no subscription
entry is recorded. -/
def sub (env : Env) (st : Store) (_session_id : String) : Store × Except PyErr Unit :=
  _init_check env st

/-- `unsub`: pop the session (a missing key is swallowed), and drop the whole
member list once no subscriber remains. -/
def unsub (st : Store) (session_id : String) : Store :=
  let st :=
    match statePop st.state session_id with
    | .ok m => { st with state := m }
    | .error _ => st
  if st.state.isEmpty then _set_empty_list st else st

/-- `_dispatch_sess`: build one payload (list id, guild id, the groups with
their live counts, and the operations) and send it to every resolvable
session; a session the `StateManager` cannot resolve is implicitly
unsubscribed instead (`get_state`).  The returned list is the sequence of
`(session, payload)` messages actually sent. -/
def _dispatch_sess (env : Env) (st : Store) (session_ids : List String)
    (operations : List Op) : Store × Except PyErr (List (String × Payload)) :=
  match mlIter st.list with
  | .error e => (st, .error e)
  | .ok gps =>
      let payload : Payload :=
        ⟨list_id st, st.guild_id, gps.map (fun gp => (gp.1.gid, gp.2.length)), operations⟩
      let res := session_ids.foldl
        (fun (acc : Store × List (String × Payload)) sid =>
          match env.fetch_raw sid with
          | some _ => (acc.1, acc.2 ++ [(sid, payload)])
          | none => (unsub acc.1 sid, acc.2))
        (st, [])
      (res.1, .ok res.2)

/-- The per-range loop of `shard_query`: ranges whose item count is negative
are skipped; each kept range is recorded under the session and then yields a
`SYNC` operation carrying the slice of the flat items. -/
def queryFold (sid : String) : List (Nat × Nat) → Store → List Op →
    Store × Except PyErr (List Op)
  | [], st, ops => (st, .ok ops)
  | (start, stop) :: rest, st, ops =>
      if (stop : Int) - (start : Int) < 0 then queryFold sid rest st ops
      else
        let st := { st with state := stateAdd st.state sid (start, stop) }
        match items st.list with
        | .error e => (st, .error e)
        | .ok its =>
            queryFold sid rest st (ops ++ [Op.sync (start, stop) (pySlice its start stop)])

/-- Outcome of `shard_query`: either the call was redirected to the guild's
canonical `everyone` list, or it completed and sent these messages. -/
inductive QueryOut
  | redirected
  | done (sent : List (String × Payload))
deriving DecidableEq, Repr

/-- `shard_query`: redirect to the `everyone` list when the `@everyone` role
can read the channel and this is not already that list; otherwise ensure the
list is built, record and answer the valid ranges, and dispatch all resulting
`SYNC` operations together to the querying session only. -/
def shard_query (env : Env) (st : Store) (session_id : String)
    (ranges : List (Nat × Nat)) : Store × Except PyErr QueryOut :=
  match env.role_permissions with
  | .error e => (st, .error e)
  | .ok everyone_perms =>
      if everyone_perms.read_messages = true ∧ list_id st ≠ "everyone" then
        (st, .ok .redirected)
      else
        bindE (_init_check env st) fun st _ =>
        bindE (queryFold session_id ranges st []) fun st ops =>
        bindE (_dispatch_sess env st [session_id] ops) fun st sent =>
        (st, .ok (.done sent))

/-- The per-group merge loop of `pres_update`: in each group's bucket, locate
the member by user id and merge the partial fields into the stored record --
except that `if not p_idx` also skips a member found at bucket index `0`. -/
def mergeLoop (uid : Nat) (patch : PresPatch) :
    List GroupEntry → Store → Store × Except PyErr Unit
  | [], st => (st, .ok ())
  | e :: rest, st =>
      match e.gidA with
      | .error er => (st, .error er)
      | .ok gid =>
          match dataGet st.list.data gid with
          | .error er => (st, .error er)
          | .ok presences =>
              let st :=
                match index_by_func (fun p => p.userId == uid) presences with
                | some (i + 1) =>
                    let merged :=
                      listModify presences (i + 1) (fun p => mergePresence p patch)
                    let d2 := st.list.data.map (fun d => assocSet d gid merged)
                    { st with list := { st.list with data := d2 } }
                | _ => st
              mergeLoop uid patch rest st

/-- `pres_update`: ensure the list is built, merge the partial presence into
the stored record (subject to the index-`0` skip of `mergeLoop`), locate the
member's flat index, and send one `UPDATE` to exactly the sessions one of
whose recorded ranges satisfies `start <= index <= end`.  A member located at
flat index `0` or not located at all is dropped with a warning. -/
def pres_update (env : Env) (st : Store) (user_id : Nat) (patch : PresPatch) :
    Store × Except PyErr (List (String × Payload)) :=
  bindE (_init_check env st) fun st _ =>
  let groupsList := st.list.groups.getD []
  bindE (mergeLoop user_id patch groupsList st) fun st _ =>
  match items st.list with
  | .error e => (st, .error e)
  | .ok its =>
      match index_by_func (fun it => itemUserId it == some user_id) its with
      | none => (st, .ok [])
      | some 0 => (st, .ok [])
      | some (i + 1) =>
          let item := its.getD (i + 1) (Item.header GID.online 0)
          let keys := st.state.map Prod.fst
          let session_ids := keys.filter (fun sess_id =>
            ((assocLookup st.state sess_id).getD []).any
              (fun rg => rg.1 ≤ i + 1 && i + 1 ≤ rg.2))
          _dispatch_sess env st session_ids [Op.update (i + 1) item]

/-- `dispatch`: the membership-event hook.  Beyond the readiness guard
(`if not self.list: return`) its body is empty in the source, so it never
mutates the list and never emits an operation. -/
def dispatch (st : Store) (_event : String) : Store × List Op :=
  if st.list.toBool = false then (st, []) else (st, [])

/-- The channel-to-store and guild-to-channels maps of
`LazyGuildDispatcher`. -/
structure LGD where
  state : List (Int × Store)
  guild_map : List (Int × List Int)
deriving DecidableEq, Repr

/-- Modelled from the spec: `storage.guild_from_channel`, the Registry's
owning-guild lookup collaborator. -/
structure RegEnv where
  guild_from_channel : Int → Option Int

/-- `LazyGuildDispatcher.get_gml`: return the cached store for the channel or
create one, defaulting the guild id to the channel id when the lookup is
falsy (`None` or `0`), and record the channel under the guild. -/
def get_gml (renv : RegEnv) (lgd : LGD) (channel_id : Int) : LGD × Store :=
  match assocLookup lgd.state channel_id with
  | some gml => (lgd, gml)
  | none =>
      let guild_id :=
        match renv.guild_from_channel channel_id with
        | some g => if g = 0 then channel_id else g
        | none => channel_id
      let gml : Store := ⟨guild_id, channel_id, emptyML, []⟩
      ({ state := lgd.state ++ [(channel_id, gml)]
         guild_map :=
           match assocLookup lgd.guild_map guild_id with
           | some cs => assocSet lgd.guild_map guild_id (cs ++ [channel_id])
           | none => lgd.guild_map ++ [(guild_id, [channel_id])] },
       gml)

/-- `LazyGuildDispatcher.unsub`: resolve the store for the channel and
delegate; the store object itself stays registered. -/
def lgd_unsub (renv : RegEnv) (lgd : LGD) (chan_id : Int) (session_id : String) : LGD :=
  let res := get_gml renv lgd chan_id
  { res.1 with state := assocSet res.1.state chan_id (unsub res.2 session_id) }

/-- The `GroupInfo('online', 'online', -1, -1)` synthetic group. -/
def onlineInfo : GroupInfo := ⟨GID.online, "online", -1, permSentinel⟩

/-- The `GroupInfo('offline', 'offline', -1, -1)` synthetic group. -/
def offlineInfo : GroupInfo := ⟨GID.offline, "offline", -1, permSentinel⟩

/-- The only fully-initialized `MemberList` shape a successful build can
produce: since storing any read-permitted hoisted role makes the build raise
(see the bare ids in `set_groups`), every built list has exactly the two
synthetic groups, an empty `group_info`, and one bucket per synthetic
group. -/
def shapeML (bOn bOff : List Presence) (ovd : List (Int × Ov)) : MemberList :=
  ⟨some [GroupEntry.info onlineInfo, GroupEntry.info offlineInfo],
   some [],
   some [(GID.online, bOn), (GID.offline, bOff)],
   some ovd⟩

/-- Concrete presence fixture: user 1, username `a`, online. -/
def presA : Presence := ⟨1, "a", [], "online", none⟩

/-- Concrete presence fixture: user 2, username `b`, online. -/
def presB : Presence := ⟨2, "b", [], "online", none⟩

/-- A concrete healthy environment: two online members, no hoisted roles,
everyone lacking channel read (so no redirect), all sessions resolvable. -/
def envT : Env :=
  { get_member_ids := .ok [1, 2]
    guild_presences := .ok [presB, presA]
    fetch_roles := .ok []
    chan_overwrites := .ok []
    get_permissions := fun _ => .ok ⟨true⟩
    get_member_data := .ok [⟨1, none⟩, ⟨2, none⟩]
    overwrite_find_mix := fun p _ _ => p
    role_permissions := .ok ⟨false⟩
    fetch_raw := fun _ => some () }

/-- A fresh store for the guild-wide list of guild 0. -/
def st0 : Store := ⟨0, 0, emptyML, []⟩

/-- The store after a successful build under `envT`. -/
def stB : Store := (_init_member_list envT st0).1

/-- The built store after session `A` subscribed to the range `[1, 2)`. -/
def stQ : Store := (shard_query envT stB "A" [(1, 2)]).1

/-- `envT` with one hoisted role whose mixed permission grants channel
read. -/
def envR : Env := { envT with fetch_roles := .ok [⟨5, "r", true, 1, ⟨true⟩⟩] }

/-- `envT` with the per-member permission resolution failing. -/
def envP : Env := { envT with get_permissions := fun _ => .error (.fetch 0) }

/-- C1, counterexample.  A failure of the per-member permission resolution
during the build propagates, yet the roster does not remain empty: all four
fields are already committed, so the readiness check will treat the list as
built and never rebuild it. -/
theorem c1_counterexample :
    (_init_member_list envP st0).2 = Except.error (PyErr.fetch 0) ∧
    (_init_member_list envP st0).1.list.toBool = true :=
  ⟨rfl, rfl⟩

/-- C2, counterexample.  Session `A` recorded only the range `[1, 2)`, the
updated member sits at flat index `2`, and `2` is outside the half-open
window `[1, 2)` -- yet the `UPDATE` is dispatched to `A`, because
`pres_update` tests `start <= index <= end` (closed at the right end). -/
theorem c2_counterexample :
    stQ.state = [("A", [(1, 2)])] ∧
    (pres_update envT stQ 2 ⟨none, none⟩).2 =
      Except.ok [("A", ⟨"everyone", 0, [(GID.online, 2), (GID.offline, 0)],
        [Op.update 2 (Item.member presB)]⟩)] ∧
    ¬ (2 < 2) :=
  ⟨rfl, rfl, by decide⟩

/-- C3, code bug.  User 1 sits at index `0` of the online bucket; a presence
update carrying a new status leaves the stored record unchanged (because
`if not p_idx` treats bucket index `0` as not-found) and the emitted `UPDATE`
carries the stale record, even though merging the patch would change it. -/
theorem c3_theorem :
    (pres_update envT stQ 1 ⟨some "idle", none⟩).1.list.data =
      some [(GID.online, [presA, presB]), (GID.offline, [])] ∧
    (pres_update envT stQ 1 ⟨some "idle", none⟩).2 =
      Except.ok [("A", ⟨"everyone", 0, [(GID.online, 2), (GID.offline, 0)],
        [Op.update 1 (Item.member presA)]⟩)] ∧
    mergePresence presA ⟨some "idle", none⟩ ≠ presA :=
  ⟨rfl, rfl, by decide⟩

/-- C6, code bug.  With one hoisted role whose mixed permission grants read,
`set_groups` stores the bare role id in the group list, and the build then
raises `AttributeError` before the buckets exist: no roster with a nonempty
hoisted group is ever built, against the specified group ordering. -/
theorem c6_theorem :
    (_init_member_list envR st0).2 = Except.error PyErr.attributeError ∧
    (_init_member_list envR st0).1.list.groups =
      some [GroupEntry.rid (GID.role 5), GroupEntry.info onlineInfo,
        GroupEntry.info offlineInfo] ∧
    (_init_member_list envR st0).1.list.data = none :=
  ⟨rfl, rfl, rfl⟩

/-- C8, code bug.  On a ready roster the membership-event hook `dispatch`
emits no operation and changes nothing: its body beyond the readiness guard
is empty, so the required `DELETE` plus `INSERT` contract is not
implemented. -/
theorem c8_theorem :
    stB.list.toBool = true ∧ dispatch stB "GUILD_MEMBER_UPDATE" = (stB, []) :=
  ⟨rfl, rfl⟩

lemma ordInsert_perm (le : α → α → Bool) (a : α) :
    ∀ l : List α, List.Perm (ordInsert le a l) (a :: l) := by
  intro l
  induction l with
  | nil => simp [ordInsert]
  | cons b t ih =>
      unfold ordInsert
      by_cases h : le a b
      · simp [h]
      · simp only [h, Bool.false_eq_true, ite_false]
        exact (List.Perm.cons b ih).trans (List.Perm.swap a b t)

lemma insSort_perm (le : α → α → Bool) :
    ∀ l : List α, List.Perm (insSort le l) l := by
  intro l
  induction l with
  | nil => simp [insSort]
  | cons a t ih =>
      unfold insSort
      exact (ordInsert_perm le a (insSort le t)).trans (List.Perm.cons a ih)

lemma pySortedBy_perm (lt : β → β → Bool) (key : α → β) (l : List α) :
    List.Perm (pySortedBy lt key l) l := by
  unfold pySortedBy
  have h1 := (insSort_perm
    (fun a b : Nat × α =>
      if lt (key a.2) (key b.2) then true
      else if lt (key b.2) (key a.2) then false
      else decide (a.1 ≤ b.1)) l.enum).map Prod.snd
  simpa [List.enum_map_snd] using h1

lemma mem_pySortedBy (lt : β → β → Bool) (key : α → β) (l : List α) (x : α) :
    x ∈ pySortedBy lt key l ↔ x ∈ l :=
  (pySortedBy_perm lt key l).mem_iff

lemma pass1_fields (env : Env) :
    ∀ (gps : List Presence) (st : Store),
      (_pass_1 env gps st).1.guild_id = st.guild_id ∧
      (_pass_1 env gps st).1.channel_id = st.channel_id ∧
      (_pass_1 env gps st).1.state = st.state ∧
      (_pass_1 env gps st).1.list.groups = st.list.groups ∧
      (_pass_1 env gps st).1.list.group_info = st.list.group_info ∧
      (_pass_1 env gps st).1.list.overwrites = st.list.overwrites ∧
      (_pass_1 env gps st).1.list.data.isSome = st.list.data.isSome := by
  intro gps
  induction gps with
  | nil => intro st; simp [_pass_1]
  | cons p rest ih =>
      intro st
      cases hperm : env.get_permissions p.userId with
      | error e => simp [_pass_1, hperm]
      | ok mp =>
          cases hr : mp.read_messages with
          | false => simpa [_pass_1, hperm, hr] using ih st
          | true =>
              cases hcg : calcGroupId st p with
              | error e => simp [_pass_1, hperm, hr, hcg]
              | ok gid =>
                  cases hd : st.list.data with
                  | none => simp [_pass_1, hperm, hr, hcg, hd]
                  | some d =>
                      cases hda : dataAppend d gid p with
                      | error e => simp [_pass_1, hperm, hr, hcg, hd, hda]
                      | ok d2 =>
                          have h2 := ih { st with list := { st.list with data := some d2 } }
                          simp only [_pass_1, hperm, hr, hcg, hd, hda]
                          simpa [hd] using h2

lemma sort_fields (env : Env) (st : Store) :
    (_sort_groups env st).1.guild_id = st.guild_id ∧
    (_sort_groups env st).1.channel_id = st.channel_id ∧
    (_sort_groups env st).1.state = st.state ∧
    (_sort_groups env st).1.list.groups = st.list.groups ∧
    (_sort_groups env st).1.list.group_info = st.list.group_info ∧
    (_sort_groups env st).1.list.overwrites = st.list.overwrites ∧
    (_sort_groups env st).1.list.data.isSome = st.list.data.isSome := by
  cases hm : env.get_member_data with
  | error e => simp [_sort_groups, hm]
  | ok members =>
      cases hd : st.list.data with
      | none => simp [_sort_groups, hm, hd]
      | some d => simp [_sort_groups, hm, hd]

lemma set_groups_fields (env : Env) (st : Store) :
    (set_groups env st).1.guild_id = st.guild_id ∧
    (set_groups env st).1.channel_id = st.channel_id ∧
    (set_groups env st).1.state = st.state ∧
    (set_groups env st).1.list.data = st.list.data := by
  cases hfr : env.fetch_roles with
  | error e => simp [set_groups, bindE, get_roles, _fetch_overwrites, hfr]
  | ok roledata =>
      cases hov : env.chan_overwrites with
      | error e => simp [set_groups, bindE, get_roles, _fetch_overwrites, hfr, hov]
      | ok ovs => simp [set_groups, bindE, get_roles, _fetch_overwrites, hfr, hov]

lemma dataInit_fields (st : Store) :
    (dataInit st).1.guild_id = st.guild_id ∧
    (dataInit st).1.channel_id = st.channel_id ∧
    (dataInit st).1.state = st.state := by
  cases hgs : st.list.groups with
  | none => simp [dataInit, hgs]
  | some gs =>
      cases hm : gs.mapM GroupEntry.gidA with
      | error e =>
          simp only [List.mapM] at hm
          simp [dataInit, hgs, hm]
      | ok gids =>
          simp only [List.mapM] at hm
          simp [dataInit, hgs, hm]

lemma build_fields (env : Env) (st : Store) :
    (_init_member_list env st).1.guild_id = st.guild_id ∧
    (_init_member_list env st).1.channel_id = st.channel_id ∧
    (_init_member_list env st).1.state = st.state := by
  cases hmi : env.get_member_ids with
  | error e => simp [_init_member_list, hmi]
  | ok mids =>
      cases hgp : env.guild_presences with
      | error e => simp [_init_member_list, hmi, hgp]
      | ok gps =>
          rcases hsg : set_groups env st with ⟨st3, r3⟩
          have hf3 := set_groups_fields env st
          rw [hsg] at hf3
          cases r3 with
          | error e =>
              simp [_init_member_list, hmi, hgp, bindE, hsg]
              exact ⟨hf3.1, hf3.2.1, hf3.2.2.1⟩
          | ok u =>
              cases u
              rcases hdi : dataInit st3 with ⟨st4, r4⟩
              have hf4 := dataInit_fields st3
              rw [hdi] at hf4
              cases r4 with
              | error e =>
                  simp [_init_member_list, hmi, hgp, bindE, hsg, hdi]
                  exact ⟨hf4.1.trans hf3.1, hf4.2.1.trans hf3.2.1,
                    hf4.2.2.trans hf3.2.2.1⟩
              | ok u =>
                  cases u
                  rcases hp1 : _pass_1 env gps st4 with ⟨st5, r5⟩
                  have hf5 := pass1_fields env gps st4
                  rw [hp1] at hf5
                  cases r5 with
                  | error e =>
                      simp [_init_member_list, hmi, hgp, bindE, hsg, hdi, hp1]
                      exact ⟨(hf5.1.trans hf4.1).trans hf3.1,
                        (hf5.2.1.trans hf4.2.1).trans hf3.2.1,
                        (hf5.2.2.1.trans hf4.2.2).trans hf3.2.2.1⟩
                  | ok u =>
                      cases u
                      have hf6 := sort_fields env st5
                      simp [_init_member_list, hmi, hgp, bindE, hsg, hdi, hp1]
                      exact ⟨((hf6.1.trans hf5.1).trans hf4.1).trans hf3.1,
                        ((hf6.2.1.trans hf5.2.1).trans hf4.2.1).trans hf3.2.1,
                        ((hf6.2.2.1.trans hf5.2.2.1).trans hf4.2.2).trans hf3.2.2.1⟩

lemma assocLookup_assocSet_self [DecidableEq κ] :
    ∀ (l : List (κ × ν)) (k : κ) (v : ν), (assocLookup l k).isSome →
      assocLookup (assocSet l k v) k = some v := by
  intro l
  induction l with
  | nil => simp [assocLookup]
  | cons kv rest ih =>
      obtain ⟨a, b⟩ := kv
      intro k v h
      by_cases hk : a = k
      · simp [assocSet, assocLookup, hk]
      · simp only [assocLookup, hk, if_false, ite_false] at h
        simp [assocSet, assocLookup, hk]
        exact ih k v h

/-- C10.  `sub` records no subscription entry, so a store whose subscription
map is empty keeps it empty across `sub`; and `unsub` with any session id --
known or not -- completes (the missed pop is swallowed) and, finding no
remaining subscriber, resets the member list to fully empty. -/
theorem c10_theorem (env : Env) (st : Store) (sid sid2 : String)
    (hempty : st.state = []) :
    (sub env st sid).1.state = [] ∧
    unsub (sub env st sid).1 sid2 = { (sub env st sid).1 with list := emptyML } := by
  have hstate : (sub env st sid).1.state = [] := by
    unfold sub _init_check
    by_cases hbt : st.list.toBool = true
    · simp [hbt, hempty]
    · rw [if_neg hbt, (build_fields env st).2.2, hempty]
  refine ⟨hstate, ?_⟩
  simp [unsub, statePop, assocLookup, _set_empty_list, hstate]

/-- C10 witness: a store built by `sub` alone, then unsubscribed with an
unknown session id, ends with the member list dropped. -/
theorem c10_witness :
    (sub envT st0 "X").1.state = [] ∧
    unsub (sub envT st0 "X").1 "nosuch" =
      { (sub envT st0 "X").1 with list := emptyML } :=
  c10_theorem envT st0 "X" "nosuch" rfl

/-- C9.  After the only subscriber unsubscribes (routed through the
Registry), the store stays registered under its channel with an empty
subscription map and a fully empty member list; re-running the readiness
check with unchanged collaborator data rebuilds a member list equal to the
one before eviction. -/
theorem c9_theorem (renv : RegEnv) (env : Env) (lgd : LGD) (g chan : Int)
    (sid : String) (rs : List (Nat × Nat)) (st1 : Store)
    (hb : _init_member_list env ⟨g, chan, emptyML, []⟩ = (st1, Except.ok ()))
    (hreg : assocLookup lgd.state chan = some { st1 with state := [(sid, rs)] }) :
    ∃ stE,
      assocLookup (lgd_unsub renv lgd chan sid).state chan = some stE ∧
      stE.list = emptyML ∧ stE.state = [] ∧
      ∃ stR, _init_check env stE = (stR, Except.ok ()) ∧ stR.list = st1.list := by
  have hids := build_fields env ⟨g, chan, emptyML, []⟩
  rw [hb] at hids
  have hg1 : st1.guild_id = g := hids.1
  have hc1 : st1.channel_id = chan := hids.2.1
  have hstB : unsub { st1 with state := [(sid, rs)] } sid =
      { st1 with state := [], list := emptyML } := by
    simp [unsub, statePop, assocLookup, _set_empty_list]
  have hg : get_gml renv lgd chan = (lgd, { st1 with state := [(sid, rs)] }) := by
    simp [get_gml, hreg]
  refine ⟨{ st1 with state := [], list := emptyML }, ?_, rfl, rfl, ?_⟩
  · simp only [lgd_unsub, hg, hstB]
    exact assocLookup_assocSet_self _ _ _ (by simp [hreg])
  · have hE : ({ st1 with state := [], list := emptyML } : Store) =
        ⟨g, chan, emptyML, []⟩ := by
      obtain ⟨g1, c1, l1, s1⟩ := st1
      have hg2 : g1 = g := hg1
      have hc2 : c1 = chan := hc1
      subst hg2
      subst hc2
      rfl
    rw [hE]
    exact ⟨st1, hb, rfl⟩

/-- C9 witness: the concrete built store of `envT`, registered for channel 0
with one subscriber, round-trips through eviction and rebuild. -/
theorem c9_witness :
    ∃ stE,
      assocLookup (lgd_unsub ⟨fun _ => none⟩ ⟨[(0, stQ)], [(0, [0])]⟩ 0 "A").state 0 =
        some stE ∧
      stE.list = emptyML ∧ stE.state = [] ∧
      ∃ stR, _init_check envT stE = (stR, Except.ok ()) ∧ stR.list = stB.list :=
  c9_theorem ⟨fun _ => none⟩ envT ⟨[(0, stQ)], [(0, [0])]⟩ 0 0 "A" [(1, 2)] stB rfl rfl

lemma pass1_toBool (env : Env) (gps : List Presence) (st : Store)
    (h : st.list.toBool = true) : (_pass_1 env gps st).1.list.toBool = true := by
  obtain ⟨-, -, -, hg, hgi, hov, hd⟩ := pass1_fields env gps st
  simp only [MemberList.toBool, hg, hgi, hov, hd]
  exact h

lemma sort_toBool (env : Env) (st : Store)
    (h : st.list.toBool = true) : (_sort_groups env st).1.list.toBool = true := by
  obtain ⟨-, -, -, hg, hgi, hov, hd⟩ := sort_fields env st
  simp only [MemberList.toBool, hg, hgi, hov, hd]
  exact h

lemma get_roles_ok_overwrites (env : Env) (st stx : Store) (kept : List GroupInfo)
    (h : get_roles env st = (stx, Except.ok kept)) :
    stx.list.overwrites.isSome = true ∧ stx.list.data = st.list.data ∧
    stx.list.groups = st.list.groups ∧ stx.list.group_info = st.list.group_info := by
  cases hfr : env.fetch_roles with
  | error e => simp [get_roles, hfr] at h
  | ok roledata =>
      cases hov : env.chan_overwrites with
      | error e => simp [get_roles, bindE, _fetch_overwrites, hfr, hov] at h
      | ok ovs =>
          simp only [get_roles, bindE, _fetch_overwrites, hfr, hov] at h
          injection h with h1 h2
          subst h1
          exact ⟨rfl, rfl, rfl, rfl⟩

/-- C1, amended.  Any collaborator failure during the build propagates as an
error, and the roster remains fully empty when the failing call is one of the
four early fetches (member ids, presences, roles, overwrites); but once those
succeed -- with no read-permitted hoisted role, the only way the build can
proceed -- the group list, group-info map, overwrite cache and buckets are
committed before per-member permission resolution and the member-data fetch,
so the store ends fully populated by the readiness check's measure whether or
not a later collaborator call fails. -/
theorem c1_amended (env : Env) (g c : Int) :
    (∀ e : PyErr,
      (env.get_member_ids = .error e ∨
       (env.get_member_ids.isOk ∧ env.guild_presences = .error e) ∨
       (env.get_member_ids.isOk ∧ env.guild_presences.isOk ∧
        env.fetch_roles = .error e) ∨
       (env.get_member_ids.isOk ∧ env.guild_presences.isOk ∧
        env.fetch_roles.isOk ∧ env.chan_overwrites = .error e)) →
      _init_member_list env ⟨g, c, emptyML, []⟩ = (⟨g, c, emptyML, []⟩, .error e)) ∧
    ((env.get_member_ids.isOk ∧ env.guild_presences.isOk ∧
      (∃ stx, get_roles env ⟨g, c, emptyML, []⟩ = (stx, Except.ok []))) →
      (_init_member_list env ⟨g, c, emptyML, []⟩).1.list.toBool = true) := by
  constructor
  · intro e h
    rcases h with h1 | ⟨hok1, h2⟩ | ⟨hok1, hok2, h3⟩ | ⟨hok1, hok2, hok3, h4⟩
    · simp [_init_member_list, h1]
    · cases hmi : env.get_member_ids with
      | error e2 => rw [hmi] at hok1; simp [Except.isOk, Except.toBool] at hok1
      | ok mids => simp [_init_member_list, hmi, h2]
    · cases hmi : env.get_member_ids with
      | error e2 => rw [hmi] at hok1; simp [Except.isOk, Except.toBool] at hok1
      | ok mids =>
          cases hgp : env.guild_presences with
          | error e2 => rw [hgp] at hok2; simp [Except.isOk, Except.toBool] at hok2
          | ok gps =>
              simp [_init_member_list, hmi, hgp, bindE, set_groups, get_roles, h3]
    · cases hmi : env.get_member_ids with
      | error e2 => rw [hmi] at hok1; simp [Except.isOk, Except.toBool] at hok1
      | ok mids =>
          cases hgp : env.guild_presences with
          | error e2 => rw [hgp] at hok2; simp [Except.isOk, Except.toBool] at hok2
          | ok gps =>
              cases hfr : env.fetch_roles with
              | error e2 => rw [hfr] at hok3; simp [Except.isOk, Except.toBool] at hok3
              | ok roledata =>
                  simp [_init_member_list, hmi, hgp, bindE, set_groups, get_roles,
                    _fetch_overwrites, hfr, h4]
  · rintro ⟨hok1, hok2, stx, hgr⟩
    cases hmi : env.get_member_ids with
    | error e2 => rw [hmi] at hok1; simp [Except.isOk, Except.toBool] at hok1
    | ok mids =>
        cases hgp : env.guild_presences with
        | error e2 => rw [hgp] at hok2; simp [Except.isOk, Except.toBool] at hok2
        | ok gps =>
            have hsg : set_groups env ⟨g, c, emptyML, []⟩ =
                ({ stx with list := { stx.list with
                    groups := some [GroupEntry.info onlineInfo, GroupEntry.info offlineInfo]
                    group_info := some [] } }, .ok ()) := by
              simp [set_groups, bindE, hgr, onlineInfo, offlineInfo]
            have hov := (get_roles_ok_overwrites env _ _ _ hgr).1
            have hdi : dataInit { stx with list := { stx.list with
                groups := some [GroupEntry.info onlineInfo, GroupEntry.info offlineInfo]
                group_info := some [] } } =
                ({ stx with list := { stx.list with
                    groups := some [GroupEntry.info onlineInfo, GroupEntry.info offlineInfo]
                    group_info := some []
                    data := some [(GID.online, []), (GID.offline, [])] } }, .ok ()) := by
              rfl
            have hb4 : ({ stx with list := { stx.list with
                groups := some [GroupEntry.info onlineInfo, GroupEntry.info offlineInfo]
                group_info := some []
                data := some [(GID.online, []), (GID.offline, [])] } } : Store).list.toBool
                = true := by
              simp [MemberList.toBool, hov]
            simp only [_init_member_list, hmi, hgp, bindE, hsg, hdi]
            rcases hp1 : _pass_1 env gps _ with ⟨st5, r5⟩
            have hb5 : st5.list.toBool = true := by
              have := pass1_toBool env gps _ hb4
              rw [hp1] at this
              exact this
            cases r5 with
            | error e2 => exact hb5
            | ok u =>
                cases u
                exact sort_toBool env st5 hb5

/-- C1 witness: a role-fetch failure leaves the roster fully empty, while a
per-member permission failure leaves it fully populated. -/
theorem c1_witness :
    _init_member_list { envT with fetch_roles := .error (.fetch 7) } st0 =
      (st0, .error (.fetch 7)) ∧
    (_init_member_list envP st0).1.list.toBool = true := by
  constructor
  · exact (c1_amended { envT with fetch_roles := .error (.fetch 7) } 0 0).1 (.fetch 7)
      (Or.inr (Or.inr (Or.inl ⟨rfl, rfl, rfl⟩)))
  · exact (c1_amended envP 0 0).2 ⟨rfl, rfl, (get_roles envP st0).1, rfl⟩

lemma dataAppend_mem :
    ∀ (d : List (GID × List Presence)) (gid : GID) (q : Presence)
      (d2 : List (GID × List Presence)),
      dataAppend d gid q = .ok d2 →
      ∀ k ps p, (k, ps) ∈ d2 → p ∈ ps →
        (∃ ps0, (k, ps0) ∈ d ∧ p ∈ ps0) ∨ p = q := by
  intro d
  induction d with
  | nil => intro gid q d2 h; simp [dataAppend] at h
  | cons kv rest ih =>
      obtain ⟨a, b⟩ := kv
      intro gid q d2 h k ps p hmem hp
      by_cases hk : a = gid
      · subst hk
        simp only [dataAppend, eq_self_iff_true, if_true] at h
        injection h with h1
        subst h1
        rcases List.mem_cons.mp hmem with heq | htail
        · injection heq with hk2 hps2
          subst hps2
          rcases List.mem_append.mp hp with hin | hin
          · exact Or.inl ⟨b, by rw [hk2]; exact List.mem_cons_self _ _, hin⟩
          · exact Or.inr (List.mem_singleton.mp hin)
        · exact Or.inl ⟨ps, List.mem_cons_of_mem _ htail, hp⟩
      · simp only [dataAppend, hk, if_neg, ite_false] at h
        cases hrec : dataAppend rest gid q with
        | error e => rw [hrec] at h; simp [Except.map] at h
        | ok d2x =>
            rw [hrec] at h
            simp only [Except.map] at h
            injection h with h1
            subst h1
            rcases List.mem_cons.mp hmem with heq | htail
            · injection heq with hk2 hps2
              subst hk2; subst hps2
              exact Or.inl ⟨ps, List.mem_cons_self _ _, hp⟩
            · rcases ih gid q d2x hrec k ps p htail hp with ⟨ps0, hin, hp0⟩ | hq
              · exact Or.inl ⟨ps0, List.mem_cons_of_mem _ hin, hp0⟩
              · exact Or.inr hq

lemma pass1_mem (env : Env) :
    ∀ (gps : List Presence) (st st2 : Store) (r : Except PyErr Unit),
      _pass_1 env gps st = (st2, r) →
      ∀ k ps p, (k, ps) ∈ st2.list.data.getD [] → p ∈ ps →
        ((∃ ps0, (k, ps0) ∈ st.list.data.getD [] ∧ p ∈ ps0) ∨
         (∃ pm, env.get_permissions p.userId = .ok pm ∧ pm.read_messages = true)) := by
  intro gps
  induction gps with
  | nil =>
      intro st st2 r h k ps p hmem hp
      simp only [_pass_1] at h
      injection h with h1 h2
      subst h1
      exact Or.inl ⟨ps, hmem, hp⟩
  | cons p0 rest ih =>
      intro st st2 r h k ps p hmem hp
      cases hperm : env.get_permissions p0.userId with
      | error e =>
          simp only [_pass_1, hperm] at h
          injection h with h1 h2
          subst h1
          exact Or.inl ⟨ps, hmem, hp⟩
      | ok mp =>
          cases hr : mp.read_messages with
          | false =>
              simp only [_pass_1, hperm, hr, if_pos] at h
              exact ih st st2 r h k ps p hmem hp
          | true =>
              cases hcg : calcGroupId st p0 with
              | error e =>
                  simp only [_pass_1, hperm, hr, Bool.true_eq_false, ite_false, hcg] at h
                  injection h with h1 h2
                  subst h1
                  exact Or.inl ⟨ps, hmem, hp⟩
              | ok gid =>
                  cases hd : st.list.data with
                  | none =>
                      simp only [_pass_1, hperm, hr, Bool.true_eq_false, ite_false,
                        hcg, hd] at h
                      injection h with h1 h2
                      subst h1
                      exact Or.inl ⟨ps, by rwa [hd] at hmem, hp⟩
                  | some d =>
                      cases hda : dataAppend d gid p0 with
                      | error e =>
                          simp only [_pass_1, hperm, hr, Bool.true_eq_false, ite_false,
                            hcg, hd, hda] at h
                          injection h with h1 h2
                          subst h1
                          exact Or.inl ⟨ps, by rwa [hd] at hmem, hp⟩
                      | ok d2 =>
                          simp only [_pass_1, hperm, hr, Bool.true_eq_false, ite_false,
                            hcg, hd, hda] at h
                          rcases ih _ st2 r h k ps p hmem hp with ⟨ps0, hin, hp0⟩ | hrest
                          · simp only [Option.getD_some] at hin
                            rcases dataAppend_mem d gid p0 d2 hda k ps0 p hin hp0 with
                              ⟨ps1, hin1, hp1⟩ | hq
                            · exact Or.inl ⟨ps1, hin1, hp1⟩
                            · subst hq
                              exact Or.inr ⟨mp, hperm, hr⟩
                          · exact Or.inr hrest

lemma sort_mem (env : Env) (st st2 : Store) (r : Except PyErr Unit)
    (h : _sort_groups env st = (st2, r)) :
    ∀ k ps p, (k, ps) ∈ st2.list.data.getD [] → p ∈ ps →
      ∃ ps0, (k, ps0) ∈ st.list.data.getD [] ∧ p ∈ ps0 := by
  cases hm : env.get_member_data with
  | error e =>
      simp only [_sort_groups, hm] at h
      injection h with h1 h2
      subst h1
      exact fun k ps p hmem hp => ⟨ps, hmem, hp⟩
  | ok members =>
      cases hd : st.list.data with
      | none =>
          simp only [_sort_groups, hm, hd] at h
          injection h with h1 h2
          subst h1
          exact fun k ps p hmem hp => ⟨ps, by rwa [hd] at hmem, hp⟩
      | some d =>
          simp only [_sort_groups, hm, hd] at h
          injection h with h1 h2
          subst h1
          intro k ps p hmem hp
          simp only [Option.getD_some] at hmem
          obtain ⟨⟨k0, ps0⟩, hin, heq⟩ := List.mem_map.mp hmem
          injection heq with hk hps
          subst hk
          refine ⟨ps0, hin, ?_⟩
          rw [← hps] at hp
          exact (mem_pySortedBy _ _ ps0 p).mp hp

lemma dataInit_ok_empty (st st4 : Store) (h : dataInit st = (st4, Except.ok ())) :
    ∀ k ps, (k, ps) ∈ st4.list.data.getD [] → ps = [] := by
  cases hgs : st.list.groups with
  | none => simp [dataInit, hgs] at h
  | some gs =>
      cases hm : gs.mapM GroupEntry.gidA with
      | error e =>
          simp only [dataInit, hgs, hm] at h
          simp at h
      | ok gids =>
          simp only [dataInit, hgs, hm] at h
          injection h with h1 h2
          subst h1
          intro k ps hmem
          simp only [Option.getD_some] at hmem
          obtain ⟨g0, -, heq⟩ := List.mem_map.mp hmem
          injection heq with hk hps
          exact hps.symm

/-- C5.  In every successfully built roster, every presence stored in any
bucket belongs to a member whose resolved effective channel permission grants
read-messages: members failing the gate are excluded from every group,
synthetic ones included. -/
theorem c5_theorem (env : Env) (st st2 : Store)
    (hb : _init_member_list env st = (st2, Except.ok ()))
    (k : GID) (ps : List Presence) (p : Presence)
    (hgp : (k, ps) ∈ st2.list.data.getD []) (hp : p ∈ ps) :
    ∃ pm, env.get_permissions p.userId = .ok pm ∧ pm.read_messages = true := by
  cases hmi : env.get_member_ids with
  | error e => simp [_init_member_list, hmi] at hb
  | ok mids =>
  cases hgpr : env.guild_presences with
  | error e => simp [_init_member_list, hmi, hgpr] at hb
  | ok gps =>
  simp only [_init_member_list, hmi, hgpr] at hb
  rcases hsg : set_groups env st with ⟨st3, r3⟩
  rw [hsg] at hb
  cases r3 with
  | error e => simp [bindE] at hb
  | ok u =>
      cases u
      simp only [bindE] at hb
      rcases hdi : dataInit st3 with ⟨st4, r4⟩
      rw [hdi] at hb
      cases r4 with
      | error e => simp [bindE] at hb
      | ok u =>
          cases u
          simp only [bindE] at hb
          rcases hp1 : _pass_1 env gps st4 with ⟨st5, r5⟩
          rw [hp1] at hb
          cases r5 with
          | error e => simp [bindE] at hb
          | ok u =>
              cases u
              simp only [bindE] at hb
              obtain ⟨ps5, hin5, hp5⟩ := sort_mem env st5 st2 _ hb k ps p hgp hp
              rcases pass1_mem env gps st4 st5 _ hp1 k ps5 p hin5 hp5 with h | h
              · obtain ⟨ps4, hin4, hp4⟩ := h
                have hempty := dataInit_ok_empty st3 st4 hdi k ps4 hin4
                subst hempty
                exact absurd hp4 (List.not_mem_nil p)
              · exact h

/-- C5 witness: in the concrete built roster, the first member of the online
bucket passed the permission gate. -/
theorem c5_witness :
    ∃ pm, envT.get_permissions presA.userId = .ok pm ∧ pm.read_messages = true :=
  c5_theorem envT st0 stB rfl GID.online [presA, presB] presA (by decide) (by decide)

/-- The ranges `shard_query` keeps: those whose item count
`end - start` is not negative. -/
def keptRanges (ranges : List (Nat × Nat)) : List (Nat × Nat) :=
  ranges.filter (fun rg => !decide ((rg.2 : Int) - (rg.1 : Int) < 0))

lemma mlIter_shape (bOn bOff : List Presence) (ovd : List (Int × Ov)) :
    mlIter (shapeML bOn bOff ovd) = .ok [(onlineInfo, bOn), (offlineInfo, bOff)] := rfl

lemma toBool_shape (bOn bOff : List Presence) (ovd : List (Int × Ov)) :
    (shapeML bOn bOff ovd).toBool = true := rfl

lemma items_shape (bOn bOff : List Presence) (ovd : List (Int × Ov)) :
    items (shapeML bOn bOff ovd) =
      .ok (Item.header GID.online bOn.length :: (bOn.map Item.member ++
        (Item.header GID.offline bOff.length :: bOff.map Item.member))) := by
  simp [items, mlIter_shape, toBool_shape, Except.bind, bind, onlineInfo, offlineInfo]

lemma assocLookup_assocSet_other [DecidableEq κ] :
    ∀ (l : List (κ × ν)) (k k2 : κ) (v : ν), k2 ≠ k →
      assocLookup (assocSet l k v) k2 = assocLookup l k2 := by
  intro l
  induction l with
  | nil => simp [assocSet]
  | cons kv rest ih =>
      obtain ⟨a, b⟩ := kv
      intro k k2 v hne
      by_cases ha : a = k
      · subst ha
        simp only [assocSet, eq_self_iff_true, if_true]
        have hak : ¬ (a = k2) := fun h => hne h.symm
        simp [assocLookup, hak]
      · simp only [assocSet, ha, ite_false]
        by_cases h2 : a = k2
        · simp [assocLookup, h2]
        · simp only [assocLookup, h2, ite_false]
          exact ih k k2 v hne

lemma assocLookup_append_single [DecidableEq κ] :
    ∀ (l : List (κ × ν)) (k k2 : κ) (v : ν),
      assocLookup (l ++ [(k, v)]) k2 =
        (assocLookup l k2).orElse (fun _ => if k = k2 then some v else none) := by
  intro l
  induction l with
  | nil => intro k k2 v; simp [assocLookup]
  | cons kv rest ih =>
      obtain ⟨a, b⟩ := kv
      intro k k2 v
      by_cases h2 : a = k2
      · simp [assocLookup, h2]
      · simp only [List.cons_append, assocLookup, h2, ite_false]
        exact ih k k2 v

lemma stateAdd_lookup_other (m : StateMap) (sid s2 : String) (rg : Nat × Nat)
    (h : s2 ≠ sid) : assocLookup (stateAdd m sid rg) s2 = assocLookup m s2 := by
  unfold stateAdd
  cases hl : assocLookup m sid with
  | some rs => exact assocLookup_assocSet_other m sid s2 _ h
  | none =>
      rw [assocLookup_append_single m sid s2 [rg]]
      cases hl2 : assocLookup m s2 with
      | some v => simp [hl2, Option.orElse]
      | none => simp [hl2, Option.orElse, Ne.symm h]

lemma stateAdd_lookup_self (m : StateMap) (sid : String) (rg : Nat × Nat) :
    ∀ x, x ∈ (assocLookup (stateAdd m sid rg) sid).getD [] ↔
      x ∈ (assocLookup m sid).getD [] ∨ x = rg := by
  intro x
  unfold stateAdd
  cases hl : assocLookup m sid with
  | some rs =>
      rw [assocLookup_assocSet_self m sid _ (by simp [hl])]
      by_cases hin : rg ∈ rs
      · simp only [hin, if_pos, hl, Option.getD_some]
        constructor
        · exact fun h => Or.inl h
        · rintro (h | h)
          · exact h
          · exact h ▸ hin
      · simp [hin, hl]
  | none =>
      rw [assocLookup_append_single m sid sid [rg]]
      simp [hl, Option.orElse]

lemma foldl_stateAdd_lookup (sid : String) :
    ∀ (rgs : List (Nat × Nat)) (m : StateMap),
      (∀ s2, s2 ≠ sid →
        assocLookup (rgs.foldl (fun m2 rg => stateAdd m2 sid rg) m) s2 =
          assocLookup m s2) ∧
      (∀ x, x ∈ (assocLookup (rgs.foldl (fun m2 rg => stateAdd m2 sid rg) m) sid).getD [] ↔
        x ∈ (assocLookup m sid).getD [] ∨ x ∈ rgs) := by
  intro rgs
  induction rgs with
  | nil => intro m; simp
  | cons rg rest ih =>
      intro m
      simp only [List.foldl]
      constructor
      · intro s2 h2
        rw [(ih (stateAdd m sid rg)).1 s2 h2]
        exact stateAdd_lookup_other m sid s2 rg h2
      · intro x
        rw [(ih (stateAdd m sid rg)).2 x, stateAdd_lookup_self m sid rg x]
        constructor
        · rintro ((h | h) | h)
          · exact Or.inl h
          · exact Or.inr (h ▸ List.mem_cons_self _ _)
          · exact Or.inr (List.mem_cons_of_mem _ h)
        · rintro (h | h)
          · exact Or.inl (Or.inl h)
          · rcases List.mem_cons.mp h with h | h
            · exact Or.inl (Or.inr h)
            · exact Or.inr h

lemma foldl_send_live (payload : Payload) :
    ∀ (sids : List String) (st : Store) (acc : List (String × Payload)),
      sids.foldl (fun (acc2 : Store × List (String × Payload)) sid =>
          (acc2.1, acc2.2 ++ [(sid, payload)])) (st, acc) =
        (st, acc ++ sids.map (fun s => (s, payload))) := by
  intro sids
  induction sids with
  | nil => intro st acc; simp
  | cons s rest ih =>
      intro st acc
      simp only [List.foldl, List.map]
      rw [ih st (acc ++ [(s, payload)])]
      simp

lemma dispatch_all_live (env : Env) (st : Store) (sids : List String) (ops : List Op)
    (gps : List (GroupInfo × List Presence)) (hml : mlIter st.list = .ok gps)
    (hlive : ∀ s, env.fetch_raw s = some ()) :
    _dispatch_sess env st sids ops =
      (st, .ok (sids.map (fun s => (s,
        (⟨list_id st, st.guild_id,
          gps.map (fun gp => (gp.1.gid, gp.2.length)), ops⟩ : Payload))))) := by
  unfold _dispatch_sess
  rw [hml]
  simp only [hlive]
  rw [foldl_send_live]
  simp

lemma queryFold_run (sid : String) (its : List Item) :
    ∀ (ranges : List (Nat × Nat)) (st : Store) (ops : List Op),
      items st.list = .ok its →
      queryFold sid ranges st ops =
        ({ st with state :=
            (keptRanges ranges).foldl (fun m rg => stateAdd m sid rg) st.state },
         .ok (ops ++ (keptRanges ranges).map
            (fun rg => Op.sync rg (pySlice its rg.1 rg.2)))) := by
  intro ranges
  induction ranges with
  | nil => intro st ops hit; simp [queryFold, keptRanges]
  | cons rg rest ih =>
      obtain ⟨start, stop⟩ := rg
      intro st ops hit
      by_cases hv : ((stop : Int) - (start : Int) < 0)
      · have hv2 : stop < start := by omega
        simp only [queryFold, hv, if_pos]
        rw [ih st ops hit]
        simp [keptRanges, hv2]
      · have hv2 : ¬ (stop < start) := by omega
        have hit2 : items ({ st with
            state := stateAdd st.state sid (start, stop) }).list = .ok its := hit
        simp only [queryFold, hv, ite_false, hit2]
        rw [ih _ _ hit2]
        simp [keptRanges, hv2]

lemma shard_query_shape (env : Env) (g c : Int) (bOn bOff : List Presence)
    (ovd : List (Int × Ov)) (sm : StateMap) (sid : String)
    (ranges : List (Nat × Nat)) (ep : Perms) (its : List Item)
    (hep : env.role_permissions = .ok ep)
    (hnr : ep.read_messages = false ∨ c = g)
    (hlive : ∀ s, env.fetch_raw s = some ())
    (hits : items (shapeML bOn bOff ovd) = .ok its) :
    shard_query env ⟨g, c, shapeML bOn bOff ovd, sm⟩ sid ranges =
      (⟨g, c, shapeML bOn bOff ovd,
        (keptRanges ranges).foldl (fun m rg => stateAdd m sid rg) sm⟩,
       .ok (.done [(sid,
         ⟨list_id ⟨g, c, shapeML bOn bOff ovd, sm⟩, g,
          [(GID.online, bOn.length), (GID.offline, bOff.length)],
          (keptRanges ranges).map (fun rg => Op.sync rg (pySlice its rg.1 rg.2))⟩)])) := by
  have hcond : ¬ (ep.read_messages = true ∧
      list_id ⟨g, c, shapeML bOn bOff ovd, sm⟩ ≠ "everyone") := by
    rcases hnr with h | h
    · rintro ⟨h1, -⟩; rw [h] at h1; exact Bool.false_ne_true h1
    · rintro ⟨-, h2⟩; exact h2 (by simp [list_id, h])
  have hic : _init_check env ⟨g, c, shapeML bOn bOff ovd, sm⟩ =
      (⟨g, c, shapeML bOn bOff ovd, sm⟩, .ok ()) := by
    simp [_init_check, toBool_shape]
  have hqf := queryFold_run sid its ranges ⟨g, c, shapeML bOn bOff ovd, sm⟩ [] hits
  have hds := dispatch_all_live env
    (⟨g, c, shapeML bOn bOff ovd,
      (keptRanges ranges).foldl (fun m rg => stateAdd m sid rg) sm⟩ : Store)
    [sid]
    ((keptRanges ranges).map (fun rg => Op.sync rg (pySlice its rg.1 rg.2)))
    [(onlineInfo, bOn), (offlineInfo, bOff)] (mlIter_shape bOn bOff ovd) hlive
  simp only [shard_query, hep, hcond, ite_false, bindE, hic, hqf, List.nil_append, hds]
  simp [onlineInfo, offlineInfo, list_id]

/-- C4.  For every built roster (necessarily of the two-synthetic-group
shape), the flat item sequence has one header per group followed by that
group's members with no offset gap, so its length is the sum over groups of
one plus the bucket length; and a subscribe call answers each kept range with
a `SYNC` carrying exactly the slice `[start, end)` of that flat sequence. -/
theorem c4_theorem (env : Env) (g c : Int) (bOn bOff : List Presence)
    (ovd : List (Int × Ov)) (sm : StateMap) (sid : String)
    (ranges : List (Nat × Nat)) (ep : Perms)
    (hep : env.role_permissions = .ok ep)
    (hnr : ep.read_messages = false ∨ c = g)
    (hlive : ∀ s, env.fetch_raw s = some ()) :
    ∃ its gps,
      items (shapeML bOn bOff ovd) = .ok its ∧
      mlIter (shapeML bOn bOff ovd) = .ok gps ∧
      its.length = (gps.map (fun gp => 1 + gp.2.length)).sum ∧
      ∃ st2 pl,
        shard_query env ⟨g, c, shapeML bOn bOff ovd, sm⟩ sid ranges =
          (st2, .ok (.done [(sid, pl)])) ∧
        pl.ops = (keptRanges ranges).map
          (fun rg => Op.sync rg (pySlice its rg.1 rg.2)) := by
  refine ⟨_, _, items_shape bOn bOff ovd, mlIter_shape bOn bOff ovd, ?_, ?_⟩
  · simp
    omega
  · exact ⟨_, _, shard_query_shape env g c bOn bOff ovd sm sid ranges ep _ hep hnr
      hlive (items_shape bOn bOff ovd), rfl⟩

/-- C4 witness: the concrete two-member roster, queried with one valid and
one invalid range. -/
theorem c4_witness :
    ∃ its gps,
      items (shapeML [presA, presB] [] []) = .ok its ∧
      mlIter (shapeML [presA, presB] [] []) = .ok gps ∧
      its.length = (gps.map (fun gp => 1 + gp.2.length)).sum ∧
      ∃ st2 pl,
        shard_query envT ⟨0, 0, shapeML [presA, presB] [] [], []⟩ "A" [(1, 2), (5, 3)] =
          (st2, .ok (.done [("A", pl)])) ∧
        pl.ops = (keptRanges [(1, 2), (5, 3)]).map
          (fun rg => Op.sync rg (pySlice its rg.1 rg.2)) :=
  c4_theorem envT 0 0 [presA, presB] [] [] [] "A" [(1, 2), (5, 3)] ⟨false⟩ rfl
    (Or.inl rfl) (fun _ => rfl)

/-- C7.  A subscribe call on a built roster records each requested range with
a non-negative item count under the session and answers it with one `SYNC`
carrying the flat-item slice for that range; a range with `end < start` is
silently skipped (neither recorded nor fatal); other sessions' recorded
ranges are untouched; and all emitted operations go out in a single dispatch
to the querying session only. -/
theorem c7_theorem (env : Env) (g c : Int) (bOn bOff : List Presence)
    (ovd : List (Int × Ov)) (sm : StateMap) (sid : String)
    (ranges : List (Nat × Nat)) (ep : Perms)
    (hep : env.role_permissions = .ok ep)
    (hnr : ep.read_messages = false ∨ c = g)
    (hlive : ∀ s, env.fetch_raw s = some ()) :
    ∃ st2 pl,
      shard_query env ⟨g, c, shapeML bOn bOff ovd, sm⟩ sid ranges =
        (st2, .ok (.done [(sid, pl)])) ∧
      pl.ops = (keptRanges ranges).map (fun rg => Op.sync rg
        (pySlice ((items (shapeML bOn bOff ovd)).toOption.getD []) rg.1 rg.2)) ∧
      (∀ rg, rg ∈ ranges → ¬ ((rg.2 : Int) - (rg.1 : Int) < 0) →
        rg ∈ (assocLookup st2.state sid).getD []) ∧
      (∀ rg, rg ∈ (assocLookup st2.state sid).getD [] →
        rg ∈ (assocLookup sm sid).getD [] ∨
          (rg ∈ ranges ∧ ¬ ((rg.2 : Int) - (rg.1 : Int) < 0))) ∧
      (∀ s2, s2 ≠ sid → assocLookup st2.state s2 = assocLookup sm s2) := by
  refine ⟨_, _,
    shard_query_shape env g c bOn bOff ovd sm sid ranges ep _ hep hnr hlive
      (items_shape bOn bOff ovd), ?_, ?_, ?_, ?_⟩
  · simp [items_shape, Except.toOption]
  · intro rg hin hvalid
    refine ((foldl_stateAdd_lookup sid (keptRanges ranges) sm).2 rg).mpr (Or.inr ?_)
    simp only [keptRanges, List.mem_filter]
    refine ⟨hin, ?_⟩
    simpa using hvalid
  · intro rg hmem
    rcases ((foldl_stateAdd_lookup sid (keptRanges ranges) sm).2 rg).mp hmem with h | h
    · exact Or.inl h
    · simp only [keptRanges, List.mem_filter] at h
      refine Or.inr ⟨h.1, ?_⟩
      simpa using h.2
  · intro s2 h2
    exact (foldl_stateAdd_lookup sid (keptRanges ranges) sm).1 s2 h2

/-- C7 witness: concrete subscribe with a valid range, an empty range and an
inverted range; only the first two are recorded and answered. -/
theorem c7_witness :
    ∃ st2 pl,
      shard_query envT ⟨0, 0, shapeML [presA, presB] [] [], []⟩ "A"
        [(1, 2), (3, 3), (4, 2)] = (st2, .ok (.done [("A", pl)])) ∧
      pl.ops = (keptRanges [(1, 2), (3, 3), (4, 2)]).map (fun rg => Op.sync rg
        (pySlice ((items (shapeML [presA, presB] [] [])).toOption.getD []) rg.1 rg.2)) ∧
      (∀ rg, rg ∈ [((1 : Nat), (2 : Nat)), (3, 3), (4, 2)] →
        ¬ ((rg.2 : Int) - (rg.1 : Int) < 0) →
        rg ∈ (assocLookup st2.state "A").getD []) ∧
      (∀ rg, rg ∈ (assocLookup st2.state "A").getD [] →
        rg ∈ (assocLookup ([] : StateMap) "A").getD [] ∨
          (rg ∈ [((1 : Nat), (2 : Nat)), (3, 3), (4, 2)] ∧
            ¬ ((rg.2 : Int) - (rg.1 : Int) < 0))) ∧
      (∀ s2, s2 ≠ "A" → assocLookup st2.state s2 = assocLookup ([] : StateMap) s2) :=
  c7_theorem envT 0 0 [presA, presB] [] [] [] "A" [(1, 2), (3, 3), (4, 2)] ⟨false⟩
    rfl (Or.inl rfl) (fun _ => rfl)

lemma assocLookup_mem_keys [DecidableEq κ] :
    ∀ (l : List (κ × ν)) (k : κ), k ∈ l.map Prod.fst ↔ ∃ v, assocLookup l k = some v := by
  intro l
  induction l with
  | nil => simp [assocLookup]
  | cons kv rest ih =>
      obtain ⟨a, b⟩ := kv
      intro k
      by_cases h : a = k
      · subst h
        simp [assocLookup]
      · simp only [List.map, List.mem_cons, assocLookup,
          h, ite_false]
        rw [ih k]
        constructor
        · rintro (heq | hm)
          · exact absurd heq.symm h
          · exact hm
        · exact fun hm => Or.inr hm

lemma mergeLoop_shape (uid : Nat) (patch : PresPatch) (g c : Int)
    (bOn bOff : List Presence) (ovd : List (Int × Ov)) (sm : StateMap) :
    ∃ bOn2 bOff2,
      mergeLoop uid patch [GroupEntry.info onlineInfo, GroupEntry.info offlineInfo]
        ⟨g, c, shapeML bOn bOff ovd, sm⟩ =
        (⟨g, c, shapeML bOn2 bOff2 ovd, sm⟩, .ok ()) := by
  have hstep2 : ∀ bOn2 : List Presence, ∃ bOff2,
      mergeLoop uid patch [GroupEntry.info offlineInfo]
        ⟨g, c, shapeML bOn2 bOff ovd, sm⟩ =
        (⟨g, c, shapeML bOn2 bOff2 ovd, sm⟩, .ok ()) := by
    intro bOn2
    cases h2 : index_by_func (fun p => p.userId == uid) bOff with
    | none =>
        exact ⟨bOff, by simp [mergeLoop, GroupEntry.gidA, dataGet, assocLookup,
          shapeML, onlineInfo, offlineInfo, h2]⟩
    | some i2 =>
        cases i2 with
        | zero =>
            exact ⟨bOff, by simp [mergeLoop, GroupEntry.gidA, dataGet, assocLookup,
              shapeML, onlineInfo, offlineInfo, h2]⟩
        | succ i =>
            exact ⟨listModify bOff (i + 1) (fun p => mergePresence p patch),
              by simp [mergeLoop, GroupEntry.gidA, dataGet, assocLookup, shapeML,
                onlineInfo, offlineInfo, h2, assocSet]⟩
  cases h1 : index_by_func (fun p => p.userId == uid) bOn with
  | none =>
      obtain ⟨bOff2, hh⟩ := hstep2 bOn
      refine ⟨bOn, bOff2, ?_⟩
      rw [← hh]
      simp [mergeLoop, GroupEntry.gidA, dataGet, assocLookup, shapeML,
        onlineInfo, offlineInfo, h1]
  | some i1 =>
      cases i1 with
      | zero =>
          obtain ⟨bOff2, hh⟩ := hstep2 bOn
          refine ⟨bOn, bOff2, ?_⟩
          rw [← hh]
          simp [mergeLoop, GroupEntry.gidA, dataGet, assocLookup, shapeML,
            onlineInfo, offlineInfo, h1]
      | succ i =>
          obtain ⟨bOff2, hh⟩ := hstep2
            (listModify bOn (i + 1) (fun p => mergePresence p patch))
          refine ⟨listModify bOn (i + 1) (fun p => mergePresence p patch), bOff2, ?_⟩
          rw [← hh]
          simp [mergeLoop, GroupEntry.gidA, dataGet, assocLookup, shapeML,
            onlineInfo, offlineInfo, h1, assocSet]

/-- C2, amended.  On a built roster, a presence update for a user located at
flat index `i > 0` emits one `UPDATE{i, item}` dispatched exactly to the
sessions one of whose recorded ranges `(start, end)` satisfies
`start <= i <= end` -- inclusive at the right end, not the half-open
`start <= i < end`; a session none of whose ranges passes the inclusive test
receives nothing. -/
theorem c2_amended (env : Env) (g c : Int) (bOn bOff : List Presence)
    (ovd : List (Int × Ov)) (sm : StateMap) (uid : Nat) (patch : PresPatch)
    (st2 : Store) (sent : List (String × Payload)) (i : Nat)
    (hlive : ∀ s, env.fetch_raw s = some ())
    (hrun : pres_update env ⟨g, c, shapeML bOn bOff ovd, sm⟩ uid patch =
      (st2, .ok sent))
    (hidx : index_by_func (fun it => itemUserId it == some uid)
        ((items st2.list).toOption.getD []) = some i)
    (hi : i ≠ 0) :
    (∀ s, s ∈ sent.map Prod.fst ↔
      ∃ rs, assocLookup sm s = some rs ∧ ∃ rg ∈ rs, rg.1 ≤ i ∧ i ≤ rg.2) ∧
    (∀ pl ∈ sent.map Prod.snd, pl.ops =
      [Op.update i (((items st2.list).toOption.getD []).getD i
        (Item.header GID.online 0))]) := by
  obtain ⟨bOn2, bOff2, hml⟩ := mergeLoop_shape uid patch g c bOn bOff ovd sm
  have hic : _init_check env ⟨g, c, shapeML bOn bOff ovd, sm⟩ =
      (⟨g, c, shapeML bOn bOff ovd, sm⟩, .ok ()) := by
    simp [_init_check, toBool_shape]
  have hgl : ((shapeML bOn bOff ovd).groups).getD [] =
      [GroupEntry.info onlineInfo, GroupEntry.info offlineInfo] := rfl
  simp only [pres_update, bindE, hic, hgl, hml, items_shape] at hrun
  cases hfind : index_by_func (fun it => itemUserId it == some uid)
      (Item.header GID.online bOn2.length :: (bOn2.map Item.member ++
        (Item.header GID.offline bOff2.length :: bOff2.map Item.member))) with
  | none =>
      simp only [hfind] at hrun
      injection hrun with h1 h2
      subst h1
      simp only [items_shape, Except.toOption, Option.getD_some] at hidx
      rw [hfind] at hidx
      exact absurd hidx (by simp)
  | some i1 =>
      cases i1 with
      | zero =>
          simp only [hfind] at hrun
          injection hrun with h1 h2
          subst h1
          simp only [items_shape, Except.toOption, Option.getD_some] at hidx
          rw [hfind] at hidx
          injection hidx with h3
          exact absurd h3.symm hi
      | succ i0 =>
          simp only [hfind] at hrun
          rw [dispatch_all_live env _ _ _ [(onlineInfo, bOn2), (offlineInfo, bOff2)]
            (mlIter_shape bOn2 bOff2 ovd) hlive] at hrun
          injection hrun with h1 h2
          subst h1
          injection h2 with h2
          subst h2
          simp only [items_shape, Except.toOption, Option.getD_some] at hidx
          rw [hfind] at hidx
          injection hidx with h3
          subst h3
          constructor
          · intro s
            simp only [List.map_map, Function.comp, List.map_id]
            constructor
            · intro hs
              simp only [List.mem_map] at hs
              obtain ⟨s0, hs0, hse⟩ := hs
              cases hse
              obtain ⟨hkey, hpred⟩ := List.mem_filter.mp hs0
              obtain ⟨rs, hlk⟩ := (assocLookup_mem_keys sm s0).mp hkey
              refine ⟨rs, hlk, ?_⟩
              rw [hlk] at hpred
              simp only [Option.getD_some, List.any_eq_true, Bool.and_eq_true,
                decide_eq_true_eq] at hpred
              exact hpred
            · rintro ⟨rs, hlk, rg, hrg, hlo, hhi⟩
              simp only [List.mem_map]
              refine ⟨s, ?_, rfl⟩
              apply List.mem_filter.mpr
              refine ⟨(assocLookup_mem_keys sm s).mpr ⟨rs, hlk⟩, ?_⟩
              rw [hlk]
              simp only [Option.getD_some, List.any_eq_true, Bool.and_eq_true,
                decide_eq_true_eq]
              exact ⟨rg, hrg, hlo, hhi⟩
          · intro pl hpl
            simp only [List.map_map, List.mem_map] at hpl
            obtain ⟨s0, -, hse⟩ := hpl
            rw [← hse]
            simp [items_shape, Except.toOption]

/-- C2 witness: on the concrete two-member roster, session `A` with the
single recorded range `(1, 3)` receives the `UPDATE` for flat index 2. -/
theorem c2_witness :
    (∀ s, s ∈ ["A"] ↔
      ∃ rs, assocLookup [("A", [((1 : Nat), (3 : Nat))])] s = some rs ∧
        ∃ rg ∈ rs, rg.1 ≤ 2 ∧ 2 ≤ rg.2) ∧
    (∀ pl ∈ [(⟨"everyone", 0, [(GID.online, 2), (GID.offline, 0)],
        [Op.update 2 (Item.member presB)]⟩ : Payload)],
      pl.ops = [Op.update 2 (Item.member presB)]) :=
  c2_amended envT 0 0 [presA, presB] [] [] [("A", [(1, 3)])] 2 ⟨none, none⟩
    ⟨0, 0, shapeML [presA, presB] [] [], [("A", [(1, 3)])]⟩
    [("A", ⟨"everyone", 0, [(GID.online, 2), (GID.offline, 0)],
      [Op.update 2 (Item.member presB)]⟩)] 2
    (fun _ => rfl) rfl rfl (by decide)
